import Mathlib

/-!
Verification of the factorio server controller (`src/controller.py`).

The controller is a single sequential process that supervises a game-server
child process, relays console I/O, parses chat-log lines, and manages an
archive of save files.  We give a shallow embedding of its operations:

* File-system effects, process control and stream traffic are reified as an
  `Action` trace; every modeled operation returns the list of actions it
  performs, in program order.
* The child's stdout is modeled as a script `outs : List String` of the lines
  successive `readline()` calls return; operations thread the unconsumed
  remainder.  `readline()` at end of script returns `""`, like a closed pipe.
* Directory listings that the code obtains via
  `sorted(Path(..).iterdir(), key=getmtime, reverse=True)` are taken as input
  lists, already ordered by modification time (most recent first), since the
  ordering is environmental.
* Python exceptions (IndexError from out-of-range indexing) are modeled by a
  `Bool` "completed normally" flag carried next to the trace; the trace holds
  the actions performed before the raise.
* Python `str.split(sep)` is modeled by `splitCh`/`pySplit`, `str.strip()` by
  `pyStrip`, `str.isdigit()` by `pyIsDigit` (ASCII reading of the Unicode
  classes), and Python list indexing (with negative wrap-around) by `pyIndex`.
* The regex `(\d{4}-\d{2}-\d{2}) (\d{2}:\d{2}:\d{2}) \[(\w+)\] (.*?) (.*)`
  used by `handle_command` (with `re.match` semantics: anchored prefix match,
  `.` not matching newline, `\w` ASCII word characters) is embedded as
  `matchLogLine`.
-/

namespace FSC

/-- Python `s.split(sep)` on a list of characters: splits at every occurrence
of the separator, keeping empty chunks; the result is never empty. -/
def splitCh (sep : Char) : List Char → List (List Char)
  | [] => [[]]
  | c :: cs =>
    let r := splitCh sep cs
    if c = sep then [] :: r
    else (c :: r.headD []) :: r.tail

/-- Join chunks back with a separator (inverse of `splitCh`). -/
def joinSep (sep : Char) : List (List Char) → List Char
  | [] => []
  | [x] => x
  | x :: y :: t => x ++ sep :: joinSep sep (y :: t)

/-- `isPfx p l` decides whether `p` is a leading segment of `l`. -/
def isPfx : List Char → List Char → Bool
  | [], _ => true
  | _ :: _, [] => false
  | a :: as, b :: bs => a = b && isPfx as bs

/-- `isSub p l` decides whether `p` occurs contiguously inside `l`
(Python's `p in l` on strings). -/
def isSub (pat : List Char) : List Char → Bool
  | [] => pat.isEmpty
  | c :: t => isPfx pat (c :: t) || isSub pat t

/-- Last element of a list with a fallback (Python `l[-1]` on a list known to
be nonempty, with an explicit default for the empty case). -/
def lastD {α : Type} : List α → α → α
  | [], d => d
  | [a], _ => a
  | _ :: b :: t, d => lastD (b :: t) d

/-- Python `str.split(sep)` producing strings. -/
def pySplit (sep : Char) (s : String) : List String :=
  (splitCh sep s.data).map String.mk

/-- Python `str.strip()`: drop leading and trailing whitespace. -/
def pyStrip (s : String) : String :=
  String.mk (((s.data.dropWhile Char.isWhitespace).reverse.dropWhile Char.isWhitespace).reverse)

/-- Python `str.isdigit()` (ASCII digits). -/
def pyIsDigit (s : String) : Bool :=
  !s.data.isEmpty && s.data.all Char.isDigit

/-- Python `int(s)` for a digit-only string (the only way the code calls it). -/
def pyToInt (s : String) : Int :=
  ((s.data.foldl (fun n c => n * 10 + (c.toNat - '0'.toNat)) 0 : Nat) : Int)

/-- Python list indexing `l[i]`, including negative wrap-around;
`none` models an `IndexError`. -/
def pyIndex {α : Type} (l : List α) (i : Int) : Option α :=
  if 0 ≤ i then l.get? i.toNat
  else if 0 ≤ (l.length : Int) + i then l.get? ((l.length : Int) + i).toNat
  else none

/-- One observable step of the controller: stream traffic, console output,
process control, file copies, handler dispatch, and the 1s grace delay. -/
inductive Action where
  /-- a line written to the child's stdin (`print(..., file=server.stdin)`) -/
  | writeChild (s : String)
  /-- one `server.stdout.readline()` call -/
  | readChild
  /-- console output (`print` to the operator's terminal) -/
  | echo (s : String)
  /-- one `sys.stdin.readline()` call -/
  | readOperator
  /-- `time.sleep(1)` -/
  | sleep
  /-- `stop_server()`: SIGINT to the child and wait -/
  | stop
  /-- `start_server()`: spawn a fresh child -/
  | start
  /-- `shutil.copy2(src, dst)` -/
  | copy (src dst : String)
  /-- the registered handler invoked on a child line -/
  | handle (s : String)
  deriving DecidableEq, Repr

/-- `FILE_PER_PAGE = 5` from the source. -/
def FILE_PER_PAGE : Int := 5

/-- The archive path `./saves/{save_name}/{current_time}_{filename}_{commander}`
that `save_current` copies to. -/
def archiveDest (saveName timeStr filename commander : String) : String :=
  "./saves/" ++ saveName ++ "/" ++ timeStr ++ "_" ++ filename ++ "_" ++ commander

/-- `time.strftime("%Y_%m_%d_%H_%M_%S", ...)`: the six timestamp fields
joined by underscores (the fields themselves are digit strings). -/
def strftimeSave (y mo dy hr mi sec : String) : String :=
  y ++ "_" ++ mo ++ "_" ++ dy ++ "_" ++ hr ++ "_" ++ mi ++ "_" ++ sec

/-- `FactorioController.print_to_server`: write the message (or a whisper) to
the child's stdin — Python `print` appends a newline — then read one line back
from the child's stdout and echo it. -/
def print_to_server (msg username : String) (outs : List String) :
    List Action × List String :=
  ((if username = "" then [Action.writeChild (msg ++ "\n")]
    else [Action.writeChild ("/w " ++ username ++ " " ++ msg ++ "\n")])
   ++ [Action.readChild, Action.echo ("server: " ++ outs.headD "")],
   outs.tail)

/-- `FactorioController.save_current`: issue `/server-save`, read three lines
of child output, and if the last space-separated token of the third line is
`"finished\n"`, copy the authoritative save file into the archive. -/
def save_current (saveName timeStr filename commander : String)
    (outs : List String) : List Action × List String :=
  let l1 := outs.getD 0 ""
  let l2 := outs.getD 1 ""
  let l3 := outs.getD 2 ""
  ([Action.writeChild "/server-save\n",
    Action.readChild, Action.echo ("server: " ++ l1),
    Action.readChild, Action.echo ("server: " ++ l2),
    Action.readChild, Action.echo ("server: " ++ l3)]
   ++ (if lastD (pySplit ' ' l3) "" = "finished\n" then
        [Action.echo "Saving is successful. Copying files now...",
         Action.copy ("./factorio/saves/" ++ saveName)
           (archiveDest saveName timeStr filename commander)]
      else [Action.echo "Saving failed. "]),
   outs.drop 3)

/-- `FactorioController.parse_file_name`: take the last `/`-component, split
on `_`; the first six tokens form the timestamp, the last token the author,
everything between (joined by spaces) the label.  `none` models the
`IndexError` Python raises when there are fewer than six tokens. -/
def parse_file_name (file_name : String) : Option (String × String × String) :=
  let fn := lastD (splitCh '/' file_name.data) []
  let toks := (splitCh '_' fn).map String.mk
  if 6 ≤ toks.length then
    some (String.intercalate " " ((toks.drop 6).dropLast),
          lastD toks "",
          toks.getD 0 "" ++ "/" ++ toks.getD 1 "" ++ "/" ++ toks.getD 2 ""
            ++ " " ++ toks.getD 3 "" ++ ":" ++ toks.getD 4 ""
            ++ ":" ++ toks.getD 5 "")
  else none

/-- Whether the decoded label of an archive file equals `name`. -/
def labelMatches (f name : String) : Bool :=
  match parse_file_name f with
  | some (sname, _, _) => sname = name
  | none => false

/-- The `for i, save in enumerate(save_files)` lookup loop of the
`!!ls <name>` branch: compare decoded labels until `i > 100` breaks the loop.
The `Bool` is `false` when `parse_file_name` raises. -/
def lookupAux (name : String) : Nat → List String → Option String × Bool
  | _, [] => (none, true)
  | i, f :: fs =>
    if 100 < i then (none, true)
    else
      match parse_file_name f with
      | none => (none, false)
      | some (sname, _, _) =>
        if sname = name then (some f, true) else lookupAux name (i + 1) fs

/-- The named-save lookup over the mtime-descending archive listing. -/
def lookupSave (files : List String) (name : String) : Option String × Bool :=
  lookupAux name 0 files

/-- `FactorioController.load_requested_save`: safety-backup save, stop, copy
the chosen file over the authoritative save path, start.  (No notification.) -/
def load_requested_save (saveName timeStr target_save : String)
    (outs : List String) : List Action × List String :=
  let sc := save_current saveName timeStr "autosave" "server" outs
  (sc.1 ++ [Action.stop,
            Action.copy target_save ("./factorio/saves/" ++ saveName),
            Action.start],
   sc.2)

/-- `FactorioController.load_last_save`: safety-backup save, notify, sleep,
stop, copy the newest non-`autosave_server` archive entry over the
authoritative path, start.  `Bool = false` models the `IndexError` on
`save_files[0]` when the filtered archive is empty (raised after the stop). -/
def load_last_save (saveName timeStr : String) (archiveFiles : List String)
    (outs : List String) : List Action × List String × Bool :=
  let sc := save_current saveName timeStr "autosave" "server" outs
  let pt := print_to_server "loading the last manual saved file" "" sc.2
  let save_files := archiveFiles.filter
    (fun f => !(isSub "autosave_server".data f.data))
  match save_files.head? with
  | some f =>
    (sc.1 ++ pt.1 ++ [Action.sleep, Action.stop,
        Action.copy f ("./factorio/saves/" ++ saveName), Action.start],
     pt.2, true)
  | none => (sc.1 ++ pt.1 ++ [Action.sleep, Action.stop], pt.2, false)

/-- `FactorioController.load_autosave`: safety-backup save, notify, sleep,
stop, then index `save_files[target - 1]` among the `_autosave` files of the
engine's save directory and copy it over the authoritative path, start.
`Bool = false` models the `IndexError` on an out-of-range index, raised after
the server has already been stopped. -/
def load_autosave (saveName timeStr : String) (autosaveFiles : List String)
    (target : Int) (outs : List String) : List Action × List String × Bool :=
  let sc := save_current saveName timeStr "autosave" "server" outs
  let pt := print_to_server
    ("loading the autosave " ++ toString target ++ " file(s) before...") "" sc.2
  let save_files := autosaveFiles.filter (fun f => isSub "_autosave".data f.data)
  match pyIndex save_files (target - 1) with
  | some f =>
    (sc.1 ++ pt.1 ++ [Action.sleep, Action.stop,
        Action.copy f ("./factorio/saves/" ++ saveName), Action.start],
     pt.2, true)
  | none => (sc.1 ++ pt.1 ++ [Action.sleep, Action.stop], pt.2, false)

/-- The `!!ls <name>` branch (controller.py lines 137–152): look the name up
among the most recent archive records; restore on a hit, otherwise notify
"Cannot find the save file". -/
def handle_ls_named (saveName timeStr : String) (archiveFiles : List String)
    (name : String) (outs : List String) : List Action × List String × Bool :=
  let r := lookupSave archiveFiles name
  if r.2 = false then ([], outs, false)
  else
    match r.1 with
    | some f =>
      let pt := print_to_server
        ("Receive load_last_save signal. Loading the save file " ++ name ++ "...")
        "" outs
      let lr := load_requested_save saveName timeStr f pt.2
      (pt.1 ++ lr.1, lr.2, true)
    | none =>
      let pt := print_to_server
        ("Cannot find the save file " ++ name ++ ". Please check if the name is correct. ")
        "" outs
      (pt.1, pt.2, true)

/-- Readiness and pending lines of the two streams `select.select` watches. -/
structure Streams where
  stdinReady : Bool
  childReady : Bool
  stdinLine : String
  childLine : String

/-- `FactorioController.wget_next_msg`: one wakeup of the dual-stream wait.
The ready child line is read, echoed, and passed to the handler (when one is
registered); the ready operator line is read and forwarded to the child's
stdin via `print`, which appends a newline.  Returns the child line, if any. -/
def wget_next_msg (st : Streams) (hasHandle : Bool) : Option String × List Action :=
  ((if st.childReady then some st.childLine else none),
   (if st.childReady then
      [Action.readChild, Action.echo ("server: " ++ st.childLine)]
      ++ (if hasHandle then [Action.handle st.childLine] else [])
    else [])
   ++ (if st.stdinReady then
        [Action.readOperator, Action.writeChild (st.stdinLine ++ "\n")]
      else []))

/-- `FactorioController.handle_user_act_to_ls`: interpret one browser command
token (`cmd[:-1]` strips the trailing newline).  Returns
`(new_page_index, req_index)`: `new_page_index = none` models Python's `None`
(quit). -/
def handle_user_act_to_ls (cmd : String) (page_index n_files : Int)
    (outs : List String) : (Option Int × Option Int) × List Action × List String :=
  let body := String.mk cmd.data.dropLast
  if body = "m" then
    if page_index + FILE_PER_PAGE < n_files then
      ((some (page_index + FILE_PER_PAGE), none), [], outs)
    else
      let p := print_to_server "[color=red]ERROR: this is the last page.[/color]" "" outs
      ((some page_index, none), p.1, p.2)
  else if body = "n" then
    if 0 ≤ page_index - FILE_PER_PAGE then
      ((some (page_index - FILE_PER_PAGE), none), [], outs)
    else
      let p := print_to_server "[color=red]ERROR: this is the first page.[/color]" "" outs
      ((some page_index, none), p.1, p.2)
  else if body = "q" then ((none, none), [], outs)
  else if pyIsDigit body then
    let req := pyToInt body
    if FILE_PER_PAGE < req ∨ req ≤ 0 then
      let p := print_to_server "invalid file number. " "" outs
      ((some page_index, none), p.1, p.2)
    else ((some page_index, some req), [], outs)
  else
    let p1 := print_to_server "you are currently in save recover mode. " "" outs
    let p2 := print_to_server "choose the save you wish to recover. " "" p1.2
    let p3 := print_to_server "enter the index to choose the save file, [color=#FF3F3F]n[/color] to view previous page, [color=#FF3F3F]m[/color] to view next page, or [color=#FF3F3F]q[/color] to quit." "" p2.2
    ((some page_index, none), p1.1 ++ p2.1 ++ p3.1, p3.2)

/-- The selection step `target_save = save_files[page_index + req_index - 1]`
of `get_requested_save`; `none` models the `IndexError`. -/
def select_target (save_files : List String) (page_index req_index : Int) :
    Option String :=
  pyIndex save_files (page_index + req_index - 1)

/-- The inner `while True` of `get_requested_save`: call `wget_next_msg()`
(no handler) until a child line whose third whitespace token is `[CHAT]`
arrives; yield its last token.  The browser script models the child-line
sequence; `none` means the script ran out (the wait would block forever). -/
def getUntilChat : List String → Option (String × List String × List Action)
  | [] => none
  | l :: rest =>
    let toks := pySplit ' ' l
    if 2 < toks.length ∧ toks.getD 2 "" = "[CHAT]" then
      some (lastD toks "", rest,
            [Action.readChild, Action.echo ("server: " ++ l)])
    else
      match getUntilChat rest with
      | none => none
      | some (c, r, acts) =>
        some (c, r, Action.readChild :: Action.echo ("server: " ++ l) :: acts)

/-- The page-rendering `for i in range(page_index, min(page_index +
FILE_PER_PAGE, n_files))` loop of `get_requested_save`; `k` counts the
remaining iterations.  `Bool = false` models `parse_file_name` raising. -/
def renderEntries (save_files : List String) (page_index : Int) :
    Nat → Int → List String → List Action × List String × Bool
  | 0, _, outs => ([], outs, true)
  | k + 1, i, outs =>
    match parse_file_name ((pyIndex save_files i).getD "") with
    | none => ([], outs, false)
    | some (sn, su, stime) =>
      let p := print_to_server
        ("    [color=#FF3F3F][" ++ toString (i - page_index + 1)
          ++ "][/color]: [color=#66CCFF]" ++ sn ++ "[/color] saved by [color=#66CCFF]"
          ++ su ++ "[/color] at UTC [color=#66CCFF]" ++ stime ++ "[/color]") "" outs
      let r := renderEntries save_files page_index k (i + 1) p.2
      (p.1 ++ r.1, r.2.1, r.2.2)

/-- The outer `while target_save is None` loop of `get_requested_save`,
driven by a fuel counter (the Python loop is unbounded; fuel exhaustion
returns `false`). -/
def browseLoop (saveName timeStr : String) (save_files : List String)
    (n_files : Int) : Nat → Int → List String → List Action × List String × Bool
  | 0, _, outs => ([], outs, false)
  | fuel + 1, page_index, outs =>
    let pP := print_to_server "enter the index to choose the save file, [color=#FF3F3F]n[/color] to view previous page, [color=#FF3F3F]m[/color] to view next page, or [color=#FF3F3F]q[/color] to quit." "" outs
    let rR := renderEntries save_files page_index
      ((min (page_index + FILE_PER_PAGE) n_files - page_index).toNat) page_index pP.2
    if rR.2.2 = false then (pP.1 ++ rR.1, rR.2.1, false)
    else
      match getUntilChat rR.2.1 with
      | none => (pP.1 ++ rR.1, [], false)
      | some (cmdTok, oC, aC) =>
        let hU := handle_user_act_to_ls cmdTok page_index n_files oC
        match hU.1.1 with
        | none =>
          let pQ := print_to_server "quit save recover mode." "" hU.2.2
          (pP.1 ++ rR.1 ++ aC ++ hU.2.1 ++ pQ.1, pQ.2, true)
        | some p' =>
          match hU.1.2 with
          | some r =>
            match select_target save_files p' r with
            | none => (pP.1 ++ rR.1 ++ aC ++ hU.2.1, hU.2.2, false)
            | some tgt =>
              let lR := load_requested_save saveName timeStr tgt hU.2.2
              (pP.1 ++ rR.1 ++ aC ++ hU.2.1 ++ lR.1, lR.2, true)
          | none =>
            let bR := browseLoop saveName timeStr save_files n_files fuel p' hU.2.2
            (pP.1 ++ rR.1 ++ aC ++ hU.2.1 ++ bR.1, bR.2.1, bR.2.2)

/-- `FactorioController.get_requested_save`: the interactive save browser. -/
def get_requested_save (saveName timeStr : String) (archiveFiles : List String)
    (outs : List String) : List Action × List String × Bool :=
  let save_files := archiveFiles
  let n_files : Int := save_files.length
  let p0 := print_to_server "choose the save you wish to recover" "" outs
  let r := browseLoop saveName timeStr save_files n_files (outs.length + 1) 0 p0.2
  (p0.1 ++ r.1, r.2.1, r.2.2)

/-- Exactly `n` consecutive `\d` characters. -/
def grabDigits : Nat → List Char → Option (List Char × List Char)
  | 0, l => some ([], l)
  | _ + 1, [] => none
  | n + 1, c :: l =>
    if c.isDigit then
      match grabDigits n l with
      | some (d, r) => some (c :: d, r)
      | none => none
    else none

/-- Consume one expected literal character. -/
def expectChar (ch : Char) : List Char → Option (List Char)
  | [] => none
  | c :: r => if c = ch then some r else none

/-- `\w` (ASCII reading). -/
def pyWordChar (c : Char) : Bool := c.isAlphanum || c = '_'

/-- Three digit groups joined by a separator: `\d{a}X\d{b}X\d{c}` (the date
`\d{4}-\d{2}-\d{2}` and the time `\d{2}:\d{2}:\d{2}` of the log-line regex). -/
def grabTriple (a b c : Nat) (x : Char) (l : List Char) : Option (String × List Char) :=
  match grabDigits a l with
  | none => none
  | some (g1, r1) =>
    match expectChar x r1 with
    | none => none
    | some r2 =>
      match grabDigits b r2 with
      | none => none
      | some (g2, r3) =>
        match expectChar x r3 with
        | none => none
        | some r4 =>
          match grabDigits c r4 with
          | none => none
          | some (g3, r5) => some (String.mk (g1 ++ x :: g2 ++ x :: g3), r5)

/-- `\[(\w+)\] ` including the trailing space: the bracketed tag of the
log-line regex.  The group captures only the word between the brackets. -/
def grabTag (l : List Char) : Option (String × List Char) :=
  match expectChar '[' l with
  | none => none
  | some r1 =>
    let w := r1.takeWhile pyWordChar
    if w = [] then none
    else
      match expectChar ']' (r1.dropWhile pyWordChar) with
      | none => none
      | some r2 =>
        match expectChar ' ' r2 with
        | none => none
        | some r3 => some (String.mk w, r3)

/-- `(.*?) (.*)` under `re.match` semantics: the first group takes the
characters up to the first space (`.` never matches a newline), the second
everything after that space up to the end of line. -/
def grabUserMsg (l : List Char) : Option (String × String) :=
  let u := l.takeWhile (fun c => !(c = ' ') && !(c = '\n'))
  match l.dropWhile (fun c => !(c = ' ') && !(c = '\n')) with
  | ' ' :: rest =>
    some (String.mk u, String.mk (rest.takeWhile (fun c => !(c = '\n'))))
  | _ => none

/-- `re.match` of `(\d{4}-\d{2}-\d{2}) (\d{2}:\d{2}:\d{2}) \[(\w+)\] (.*?) (.*)`
against a line: the five capture groups, or `none` when the line does not
match.  Note the third group captures the word between the brackets — the
brackets themselves are outside the group. -/
def matchLogLine (cmd : String) : Option (String × String × String × String × String) :=
  match grabTriple 4 2 2 '-' cmd.data with
  | none => none
  | some (date, r1) =>
    match expectChar ' ' r1 with
    | none => none
    | some r2 =>
      match grabTriple 2 2 2 ':' r2 with
      | none => none
      | some (tim, r3) =>
        match expectChar ' ' r3 with
        | none => none
        | some r4 =>
          match grabTag r4 with
          | none => none
          | some (tag, r5) =>
            match grabUserMsg r5 with
            | none => none
            | some (u, m) => some (date, tim, tag, u, m)

/-- `FactorioController.handle_command`: parse one child output line and
dispatch chat commands.  The elif chain follows the source order; the second
`!!save` branch of the source (line 160) is kept even though the earlier
identical guard makes it unreachable. -/
def handle_command (saveName timeStr : String)
    (archiveFiles autosaveFiles : List String) (outs : List String)
    (cmd : String) : List Action × List String × Bool :=
  match matchLogLine cmd with
  | none => ([], outs, true)
  | some (_d, _t, msg_type, username, message) =>
    let messages := pySplit ' ' (pyStrip message)
    if msg_type = "[CHAT]" then
      let m0 := messages.getD 0 ""
      if m0 = "!!restart" then
        let p := print_to_server "Receive restart signal. Restarting the server..." "" outs
        (p.1 ++ [Action.sleep, Action.stop, Action.start], p.2, true)
      else if m0 = "!!shutdown" then
        let p := print_to_server "Receive shutdown signal. Shutting down the server..." "" outs
        (p.1 ++ [Action.sleep, Action.stop], p.2, true)
      else if m0 = "!!la" then
        match messages.get? 1 with
        | none => ([], outs, false)
        | some m1 =>
          let p := print_to_server "Receive load_autosave signal. loading autosave..." "" outs
          let la := load_autosave saveName timeStr autosaveFiles
            (if pyIsDigit m1 then pyToInt m1 else 1) p.2
          (p.1 ++ la.1, la.2.1, la.2.2)
      else if m0 = "!!help" then
        let p1 := print_to_server "!!shutdown         ->  shutdown the server\n" username outs
        let p2 := print_to_server "!!restart          ->  restart the server\n" username p1.2
        let p3 := print_to_server "!!la m             ->  load the autosaved file m files before current save, default m = 1\n" username p2.2
        let p4 := print_to_server "!!save             ->  save the current file immediately\n" username p3.2
        let p5 := print_to_server "!!ls               ->  load the previously saved file\n" username p4.2
        let p6 := print_to_server "!!ls ?             ->  check all saved file and restore from them\n" username p5.2
        (p1.1 ++ p2.1 ++ p3.1 ++ p4.1 ++ p5.1 ++ p6.1, p6.2, true)
      else if m0 = "!!save" then
        let p := print_to_server "Receive save signal. Saving current file..." "" outs
        let sc := save_current saveName timeStr "request_save" username p.2
        (p.1 ++ sc.1, sc.2, true)
      else if m0 = "!!ls" then
        if 1 < messages.length then
          if messages.getD 1 "" = "?" then
            get_requested_save saveName timeStr archiveFiles outs
          else handle_ls_named saveName timeStr archiveFiles (messages.getD 1 "") outs
        else
          let p := print_to_server "Receive load_last_save signal. Loading last save..." "" outs
          let ll := load_last_save saveName timeStr archiveFiles p.2
          (p.1 ++ ll.1, ll.2.1, ll.2.2)
      else ([], outs, true)
    else ([], outs, true)

/-- Number of child-stdout reads in a trace. -/
def countReads : List Action → Nat
  | [] => 0
  | Action.readChild :: tr => countReads tr + 1
  | _ :: tr => countReads tr

/-- The lines written to the child's stdin, in order. -/
def childWrites : List Action → List String
  | [] => []
  | Action.writeChild s :: tr => s :: childWrites tr
  | _ :: tr => childWrites tr

/-- The state-mutating actions (process stop/start and file copies). -/
def mutActs : List Action → List Action
  | [] => []
  | Action.stop :: tr => Action.stop :: mutActs tr
  | Action.start :: tr => Action.start :: mutActs tr
  | Action.copy s d :: tr => Action.copy s d :: mutActs tr
  | _ :: tr => mutActs tr

/-- Sources of the copies written onto a given destination path. -/
def copiesTo (dst : String) : List Action → List String
  | [] => []
  | Action.copy s d :: tr =>
    if d = dst then s :: copiesTo dst tr else copiesTo dst tr
  | _ :: tr => copiesTo dst tr

/-! ### Helper lemmas: strings and splitting -/

theorem mk_data (s : String) : String.mk s.data = s := rfl

theorem data_append (a b : String) : (a ++ b).data = a.data ++ b.data := rfl

theorem mk_inj {a b : List Char} (h : String.mk a = String.mk b) : a = b := by
  have := congrArg String.data h
  simpa using this

theorem lastD_irrel {α : Type} (l : List α) (d1 d2 : α) (h : l ≠ []) :
    lastD l d1 = lastD l d2 := by
  induction l with
  | nil => exact absurd rfl h
  | cons a t ih =>
    cases t with
    | nil => rfl
    | cons b u => simpa [lastD] using ih (by simp)

theorem lastD_map {α β : Type} (f : α → β) (l : List α) (d : α) :
    lastD (l.map f) (f d) = f (lastD l d) := by
  induction l generalizing d with
  | nil => rfl
  | cons a t ih =>
    cases t with
    | nil => rfl
    | cons b u => simpa [lastD] using ih d

theorem lastD_decomp {α : Type} (l : List α) (d : α) (h : l ≠ []) :
    ∃ ts, l = ts ++ [lastD l d] := by
  induction l with
  | nil => exact absurd rfl h
  | cons a t ih =>
    cases t with
    | nil => exact ⟨[], rfl⟩
    | cons b u =>
      obtain ⟨ts, hts⟩ := ih (by simp)
      refine ⟨a :: ts, ?_⟩
      simpa [lastD] using congrArg (a :: ·) hts

theorem splitCh_ne_nil (sep : Char) (l : List Char) : splitCh sep l ≠ [] := by
  cases l with
  | nil => simp [splitCh]
  | cons c cs =>
    by_cases h : c = sep <;> simp [splitCh, h]

theorem joinSep_splitCh (sep : Char) (l : List Char) :
    joinSep sep (splitCh sep l) = l := by
  induction l with
  | nil => rfl
  | cons c cs ih =>
    by_cases h : c = sep
    · subst h
      obtain ⟨x, xs, hr⟩ : ∃ x xs, splitCh c cs = x :: xs := by
        cases hx : splitCh c cs with
        | nil => exact absurd hx (splitCh_ne_nil c cs)
        | cons x xs => exact ⟨x, xs, rfl⟩
      rw [hr] at ih
      simp only [splitCh, if_pos rfl, hr, joinSep]
      simpa using ih
    · obtain ⟨x, xs, hr⟩ : ∃ x xs, splitCh sep cs = x :: xs := by
        cases hx : splitCh sep cs with
        | nil => exact absurd hx (splitCh_ne_nil sep cs)
        | cons x xs => exact ⟨x, xs, rfl⟩
      rw [hr] at ih
      simp only [splitCh, if_neg h, hr]
      cases xs with
      | nil => simpa [joinSep] using ih
      | cons y ys =>
        simp only [joinSep, List.headD, List.tail] at ih ⊢
        rw [List.cons_append, ih]

theorem joinSep_concat (sep : Char) (ts : List (List Char)) (t : List Char) :
    ∃ a, joinSep sep (ts ++ [t]) = a ++ t := by
  induction ts with
  | nil => exact ⟨[], rfl⟩
  | cons x xs ih =>
    obtain ⟨a, ha⟩ := ih
    cases xs with
    | nil => exact ⟨x ++ [sep], by simp [joinSep]⟩
    | cons y ys =>
      refine ⟨x ++ sep :: a, ?_⟩
      calc joinSep sep ((x :: y :: ys) ++ [t])
          = x ++ sep :: joinSep sep ((y :: ys) ++ [t]) := rfl
        _ = x ++ sep :: (a ++ t) := by rw [ha]
        _ = (x ++ sep :: a) ++ t := by simp

theorem splitCh_last_suffix (sep : Char) (l : List Char) :
    ∃ a, l = a ++ lastD (splitCh sep l) [] := by
  obtain ⟨ts, hts⟩ := lastD_decomp (splitCh sep l) [] (splitCh_ne_nil sep l)
  obtain ⟨a, ha⟩ := joinSep_concat sep ts (lastD (splitCh sep l) [])
  refine ⟨a, ?_⟩
  conv_lhs => rw [← joinSep_splitCh sep l, hts, ha]

theorem splitCh_no_sep (sep : Char) (l : List Char) (h : sep ∉ l) :
    splitCh sep l = [l] := by
  induction l with
  | nil => rfl
  | cons c cs ih =>
    have hc : ¬(c = sep) := fun hc => h (hc ▸ List.mem_cons_self c cs)
    have hcs : sep ∉ cs := fun hm => h (List.mem_cons_of_mem c hm)
    simp [splitCh, hc, ih hcs]

theorem splitCh_append_sep (sep : Char) (l1 l2 : List Char) (h : sep ∉ l1) :
    splitCh sep (l1 ++ sep :: l2) = l1 :: splitCh sep l2 := by
  induction l1 with
  | nil => simp [splitCh]
  | cons c cs ih =>
    have hc : ¬(c = sep) := fun hc => h (hc ▸ List.mem_cons_self c cs)
    have hcs : sep ∉ cs := fun hm => h (List.mem_cons_of_mem c hm)
    have := ih hcs
    simp [splitCh, hc, this]

theorem splitCh_exists_cons (sep : Char) (l : List Char) :
    ∃ x xs, splitCh sep l = x :: xs := by
  cases hx : splitCh sep l with
  | nil => exact absurd hx (splitCh_ne_nil sep l)
  | cons x xs => exact ⟨x, xs, rfl⟩

theorem splitCh_cons_sep (sep : Char) (cs : List Char) :
    splitCh sep (sep :: cs) = [] :: splitCh sep cs := by
  simp [splitCh]

theorem splitCh_cons_ne (sep c : Char) (cs : List Char) (hc : ¬(c = sep)) :
    splitCh sep (c :: cs) =
      (c :: (splitCh sep cs).headD []) :: (splitCh sep cs).tail := by
  simp [splitCh, hc]

theorem splitCh_append_two (sep : Char) (l1 l2 : List Char) :
    2 ≤ (splitCh sep (l1 ++ sep :: l2)).length := by
  induction l1 with
  | nil =>
    obtain ⟨x, xs, hx⟩ := splitCh_exists_cons sep l2
    rw [List.nil_append, splitCh_cons_sep, hx]
    simp
  | cons c cs ih =>
    by_cases hc : c = sep
    · subst hc
      obtain ⟨x, xs, hx⟩ := splitCh_exists_cons c (cs ++ c :: l2)
      rw [List.cons_append, splitCh_cons_sep, hx]
      simp
    · obtain ⟨x, xs, hr⟩ := splitCh_exists_cons sep (cs ++ sep :: l2)
      rw [hr] at ih
      rw [List.cons_append, splitCh_cons_ne sep c _ hc, hr]
      simp only [List.length_cons, List.tail_cons] at ih ⊢
      omega

theorem lastD_cons_cons {α : Type} (a b : α) (t : List α) (d : α) :
    lastD (a :: b :: t) d = lastD (b :: t) d := rfl

theorem splitCh_last_after_sep (sep : Char) (l1 l2 : List Char) :
    lastD (splitCh sep (l1 ++ sep :: l2)) [] = lastD (splitCh sep l2) [] := by
  induction l1 with
  | nil =>
    obtain ⟨x, xs, hx⟩ := splitCh_exists_cons sep l2
    rw [List.nil_append, splitCh_cons_sep, hx, lastD_cons_cons]
  | cons c cs ih =>
    by_cases hc : c = sep
    · subst hc
      obtain ⟨x, xs, hx⟩ := splitCh_exists_cons c (cs ++ c :: l2)
      rw [List.cons_append, splitCh_cons_sep, hx, lastD_cons_cons, ← hx, ih]
    · have hlen := splitCh_append_two sep cs l2
      obtain ⟨x, xs, hr⟩ := splitCh_exists_cons sep (cs ++ sep :: l2)
      rw [hr] at ih hlen
      obtain ⟨y, ys, hxs⟩ : ∃ y ys, xs = y :: ys := by
        cases hxs : xs with
        | nil => rw [hxs] at hlen; simp at hlen
        | cons y ys => exact ⟨y, ys, rfl⟩
      subst hxs
      rw [List.cons_append, splitCh_cons_ne sep c _ hc, hr]
      simp only [List.headD_cons, List.tail_cons]
      rw [lastD_cons_cons]
      rw [lastD_cons_cons] at ih
      exact ih

/-! ### Helper lemmas: substring search -/

theorem isPfx_self_append (p b : List Char) : isPfx p (p ++ b) = true := by
  induction p with
  | nil => rfl
  | cons c cs ih => simp [isPfx, ih]

theorem isSub_self_append (pat b : List Char) : isSub pat (pat ++ b) = true := by
  cases hp : pat with
  | nil =>
    cases b with
    | nil => rfl
    | cons c cs => simp [isSub, isPfx]
  | cons p ps =>
    rw [List.cons_append, isSub, ← List.cons_append, ← hp, isPfx_self_append]
    simp

theorem isSub_of_parts (pat a b l : List Char) (h : l = a ++ (pat ++ b)) :
    isSub pat l = true := by
  subst h
  induction a with
  | nil => simpa using isSub_self_append pat b
  | cons x xs ih =>
    rw [List.cons_append, isSub, ih]
    simp


/-! ### Helper lemmas: trace functions -/

theorem countReads_append (a b : List Action) :
    countReads (a ++ b) = countReads a + countReads b := by
  induction a with
  | nil => simp [countReads]
  | cons x tr ih => cases x <;> (simp [countReads, ih]; try omega)

theorem childWrites_append (a b : List Action) :
    childWrites (a ++ b) = childWrites a ++ childWrites b := by
  induction a with
  | nil => simp [childWrites]
  | cons x tr ih => cases x <;> simp [childWrites, ih]

theorem mutActs_append (a b : List Action) :
    mutActs (a ++ b) = mutActs a ++ mutActs b := by
  induction a with
  | nil => simp [mutActs]
  | cons x tr ih => cases x <;> simp [mutActs, ih]

theorem copiesTo_append (dst : String) (a b : List Action) :
    copiesTo dst (a ++ b) = copiesTo dst a ++ copiesTo dst b := by
  induction a with
  | nil => simp [copiesTo]
  | cons x tr ih =>
    cases x with
    | copy s d =>
      simp only [List.cons_append, copiesTo, ih]
      split <;> simp [ih]
    | writeChild s => simpa [copiesTo] using ih
    | readChild => simpa [copiesTo] using ih
    | echo s => simpa [copiesTo] using ih
    | readOperator => simpa [copiesTo] using ih
    | sleep => simpa [copiesTo] using ih
    | stop => simp [copiesTo, ih]
    | start => simp [copiesTo, ih]
    | handle s => simpa [copiesTo] using ih

/-- `save_current` written out (definitional). -/
theorem save_current_eq (sn ts f c : String) (outs : List String) :
    save_current sn ts f c outs =
      ([Action.writeChild "/server-save\n",
        Action.readChild, Action.echo ("server: " ++ outs.getD 0 ""),
        Action.readChild, Action.echo ("server: " ++ outs.getD 1 ""),
        Action.readChild, Action.echo ("server: " ++ outs.getD 2 "")]
       ++ (if lastD (pySplit ' ' (outs.getD 2 "")) "" = "finished\n" then
            [Action.echo "Saving is successful. Copying files now...",
             Action.copy ("./factorio/saves/" ++ sn) (archiveDest sn ts f c)]
          else [Action.echo "Saving failed. "]), outs.drop 3) := rfl

theorem archiveDest_ne_auth (sn ts f c sn2 : String) :
    ¬(archiveDest sn ts f c = "./factorio/saves/" ++ sn2) := by
  intro h
  have h1 : (archiveDest sn ts f c).data.getD 2 ' ' = 's' := rfl
  have h2 : ("./factorio/saves/" ++ sn2).data.getD 2 ' ' = 'f' := rfl
  rw [h] at h1
  rw [h1] at h2
  exact absurd h2 (by decide)

theorem mutActs_save_current (sn ts f c : String) (outs : List String) :
    mutActs (save_current sn ts f c outs).1 =
      (if lastD (pySplit ' ' (outs.getD 2 "")) "" = "finished\n" then
        [Action.copy ("./factorio/saves/" ++ sn) (archiveDest sn ts f c)]
      else []) := by
  rw [save_current_eq]
  split <;> simp [mutActs, mutActs_append]

theorem childWrites_save_current (sn ts f c : String) (outs : List String) :
    childWrites (save_current sn ts f c outs).1 = ["/server-save\n"] := by
  rw [save_current_eq]
  split <;> simp [childWrites, childWrites_append]

theorem countReads_save_current (sn ts f c : String) (outs : List String) :
    countReads (save_current sn ts f c outs).1 = 3 := by
  rw [save_current_eq]
  split <;> simp [countReads, countReads_append]

theorem copiesTo_auth_save_current (sn ts f c sn2 : String) (outs : List String) :
    copiesTo ("./factorio/saves/" ++ sn2) (save_current sn ts f c outs).1 = [] := by
  rw [save_current_eq]
  split <;>
    simp [copiesTo, copiesTo_append, if_neg (archiveDest_ne_auth sn ts f c sn2)]

theorem mutActs_print_to_server (msg username : String) (outs : List String) :
    mutActs (print_to_server msg username outs).1 = [] := by
  unfold print_to_server
  split <;> simp [mutActs, mutActs_append]

theorem childWrites_print_to_server (msg : String) (outs : List String) :
    childWrites (print_to_server msg "" outs).1 = [msg ++ "\n"] := by
  unfold print_to_server
  simp [childWrites, childWrites_append]

theorem countReads_print_to_server (msg username : String) (outs : List String) :
    countReads (print_to_server msg username outs).1 = 1 := by
  unfold print_to_server
  split <;> simp [countReads, countReads_append]

theorem copiesTo_print_to_server (dst msg username : String) (outs : List String) :
    copiesTo dst (print_to_server msg username outs).1 = [] := by
  unfold print_to_server
  split <;> simp [copiesTo, copiesTo_append]


/-! ### Claim C1 -/

/-- **C1** (code bug).  For the chat line
`2024-01-15 10:00:00 [CHAT] alice !!save backup1`, the regex's third group
captures the tag *without* brackets (`"CHAT"`), but `handle_command` compares
that group against the bracketed string `"[CHAT]"`.  The guard is therefore
never satisfied: the dispatcher returns without issuing any save request and
no archive entry is created, contradicting end-to-end scenario A of the
specification.  The theorem evaluates the code at the failing input: the line
parses as a CHAT event with message `!!save backup1`, yet `handle_command`
produces an empty action trace. -/
theorem c1_chat_save_line_never_dispatched (saveName timeStr : String)
    (archiveFiles autosaveFiles outs : List String) :
    matchLogLine "2024-01-15 10:00:00 [CHAT] alice !!save backup1\n" =
      some ("2024-01-15", "10:00:00", "CHAT", "alice", "!!save backup1") ∧
    handle_command saveName timeStr archiveFiles autosaveFiles outs
      "2024-01-15 10:00:00 [CHAT] alice !!save backup1\n" = ([], outs, true) :=
  ⟨rfl, rfl⟩

/-! ### Claim C3 -/

/-- **C3** (code bug).  With 12 archive records and page size 5, on the third
page (`page_index = 10`, which holds only records 11–12) the numeric selection
`3` is *accepted* by `handle_user_act_to_ls` — its range check only compares
against the page size `FILE_PER_PAGE = 5`, not against the number of records
populated on the current page — and the subsequent record access
`save_files[page_index + req_index - 1] = save_files[12]` is out of bounds
(`IndexError`), instead of the rejection-with-notification the claim states. -/
theorem c3_selection_beyond_page_accepted :
    (handle_user_act_to_ls "3\n" 10 12 []).1 = (some 10, some 3) ∧
    select_target ["f1", "f2", "f3", "f4", "f5", "f6", "f7", "f8", "f9", "f10",
      "f11", "f12"] 10 3 = none := by
  constructor
  · decide
  · decide

/-! ### Claim C2, counterexample -/

/-- **C2, counterexample.**  Requesting autosave index 5 when only one
autosave exists: `load_autosave` performs the safety save and *stops the
server* before indexing the autosave list; the out-of-range index then raises
(completion flag `false`) after the stop — the command does not abort before
the stop as the claim states, and no error notification is sent. -/
theorem c2_out_of_range_autosave_stops_first :
    Action.stop ∈ (load_autosave "sav.zip" "2024_01_01_00_00_00"
      ["factorio/saves/_autosave1.zip"] 5 ["a\n", "b\n", "c\n", "d\n"]).1 ∧
    (load_autosave "sav.zip" "2024_01_01_00_00_00"
      ["factorio/saves/_autosave1.zip"] 5 ["a\n", "b\n", "c\n", "d\n"]).2.2 = false := by
  constructor
  · decide
  · decide

/-! ### Claim C4, counterexample -/

/-- **C4, counterexample.**  `load_requested_save` writes nothing to the
child's stdin except the `/server-save` command itself: its restore sequence
contains *no* notification between the safety-backup save and the server
stop, contradicting the claim that every restore path performs
save → notification → stop → copy → start. -/
theorem c4_requested_save_has_no_notification :
    childWrites (load_requested_save "sav.zip" "2024_01_01_00_00_00"
      "saves/sav.zip/f" ["a\n", "b\n", "c\n"]).1 = ["/server-save\n"] := by
  decide

/-! ### Claim C6, counterexample -/

/-- **C6, counterexample.**  `print_to_server` — a different function from
`wget_next_msg` — performs a child-stdout read on every call: the child's
output stream is consumed outside the multiplexer's dual-stream wait,
and the line so consumed is never offered to the registered handler. -/
theorem c6_print_to_server_reads_child :
    Action.readChild ∈ (print_to_server "hello" "" ["line1\n"]).1 ∧
    Action.handle "line1\n" ∉ (print_to_server "hello" "" ["line1\n"]).1 := by
  constructor
  · decide
  · decide

/-! ### Claim C7, counterexample -/

/-- **C7, counterexample.**  An operator line `"hi\n"` read by the
multiplexer is forwarded through Python's `print`, which appends a second
newline: the child receives `"hi\n\n"`, not the byte-for-byte line with its
single terminating newline. -/
theorem c7_forwarded_line_not_verbatim :
    Action.writeChild "hi\n" ∉ (wget_next_msg ⟨true, false, "hi\n", ""⟩ false).2 ∧
    Action.writeChild "hi\n\n" ∈ (wget_next_msg ⟨true, false, "hi\n", ""⟩ false).2 := by
  constructor
  · decide
  · decide

/-! ### Claim C10, counterexample -/

/-- **C10, counterexample.**  The label `a/b` contains no underscore, yet the
archive path `save_current` would produce for it decodes to `none`
(`parse_file_name` keeps only the part after the last `/`, finds two
underscore tokens, and raises `IndexError` in Python): the decode does not
yield the encoded label and author. -/
theorem c10_slash_label_breaks_decode :
    parse_file_name (archiveDest "sav.zip" "2024_01_01_00_00_00" "a/b" "alice")
      = none := by
  decide


/-! ### Claim C5 -/

/-- **C5** (confirmed).  If the success marker `finished` does not occur in
the final line of the three-line output window `save_current` inspects, then
the trace contains no state-mutating action at all — in particular no file
copy, so the authoritative save file and the archive directory are left
unchanged — and the failure is logged to the console. -/
theorem c5_marker_absent_no_copy (saveName timeStr filename commander : String)
    (outs : List String)
    (h : isSub "finished".data (outs.getD 2 "").data = false) :
    mutActs (save_current saveName timeStr filename commander outs).1 = [] ∧
    Action.echo "Saving failed. " ∈
      (save_current saveName timeStr filename commander outs).1 := by
  have hcond : ¬(lastD (pySplit ' ' (outs.getD 2 "")) "" = "finished\n") := by
    intro hEq
    have hEq2 : lastD ((splitCh ' ' (outs.getD 2 "").data).map String.mk)
        (String.mk []) = String.mk ("finished\n".data) := hEq
    rw [lastD_map String.mk (splitCh ' ' (outs.getD 2 "").data) []] at hEq2
    have h2 := mk_inj hEq2
    obtain ⟨a, ha⟩ := splitCh_last_suffix ' ' (outs.getD 2 "").data
    rw [h2] at ha
    have hfd : ("finished\n".data : List Char) = "finished".data ++ ['\n'] := rfl
    have h4 : isSub "finished".data (outs.getD 2 "").data = true :=
      isSub_of_parts "finished".data a ['\n'] _ (by rw [ha, hfd])
    rw [h4] at h
    exact Bool.noConfusion h
  rw [save_current_eq]
  refine ⟨?_, ?_⟩
  · rw [if_neg hcond, mutActs_append]
    simp [mutActs]
  · rw [if_neg hcond]
    simp

/-- Witness for C5 at a concrete input whose third output line lacks the
marker. -/
theorem c5_marker_absent_no_copy_witness :
    isSub "finished".data
      ((["a\n", "b\n", "save error\n"] : List String).getD 2 "").data = false ∧
    (mutActs (save_current "sav.zip" "T" "autosave" "server"
        ["a\n", "b\n", "save error\n"]).1 = [] ∧
     Action.echo "Saving failed. " ∈
       (save_current "sav.zip" "T" "autosave" "server"
         ["a\n", "b\n", "save error\n"]).1) :=
  ⟨by decide, c5_marker_absent_no_copy "sav.zip" "T" "autosave" "server"
    ["a\n", "b\n", "save error\n"] (by decide)⟩

/-! ### Claim C6, amended -/

/-- **C6** (corrected, amended claim).  The dual-stream wait `wget_next_msg`
is *not* the only point that reads the child's output stream: every
`print_to_server` call reads exactly one child line and every `save_current`
call reads exactly three, and those reads bypass the handler.
`wget_next_msg` itself reads one line exactly when the child stream is ready,
and offers that line to the registered handler. -/
theorem c6_multiple_child_read_points (msg username sn ts f c : String)
    (outs outs2 : List String) (st : Streams) (hasHandle : Bool) :
    countReads (print_to_server msg username outs).1 = 1 ∧
    countReads (save_current sn ts f c outs2).1 = 3 ∧
    countReads (wget_next_msg st hasHandle).2 = (if st.childReady then 1 else 0) ∧
    (st.childReady = true → Action.handle st.childLine ∈ (wget_next_msg st true).2) := by
  refine ⟨countReads_print_to_server msg username outs,
          countReads_save_current sn ts f c outs2, ?_, ?_⟩
  · obtain ⟨sr, cr, sl, cl⟩ := st
    cases cr <;> cases sr <;> cases hasHandle <;>
      simp [wget_next_msg, countReads, countReads_append]
  · intro hcr
    obtain ⟨sr, cr, sl, cl⟩ := st
    cases cr with
    | false => exact absurd hcr (by simp)
    | true => cases sr <;> simp [wget_next_msg]

/-- Witness for C6 at concrete streams. -/
theorem c6_multiple_child_read_points_witness :
    countReads (print_to_server "hello" "" ["x\n"]).1 = 1 ∧
    countReads (save_current "s" "T" "f" "c" ["a\n", "b\n", "c\n"]).1 = 3 ∧
    countReads (wget_next_msg ⟨false, true, "op\n", "ch\n"⟩ false).2 = 1 ∧
    Action.handle "ch\n" ∈ (wget_next_msg ⟨false, true, "op\n", "ch\n"⟩ true).2 := by
  have t := c6_multiple_child_read_points "hello" "" "s" "T" "f" "c" ["x\n"]
    ["a\n", "b\n", "c\n"] ⟨false, true, "op\n", "ch\n"⟩ false
  exact ⟨t.1, t.2.1, by simpa using t.2.2.1, t.2.2.2 rfl⟩

/-! ### Claim C7, amended -/

/-- **C7** (corrected, amended claim).  Within the same wakeup, the operator
line read from console input is forwarded to the child's stdin with one
*additional* newline appended (Python's `print` terminates the already
newline-terminated line again); the forwarded text is `line ++ "\n"`, not the
verbatim line. -/
theorem c7_operator_line_forwarded_with_extra_newline (line childLine : String)
    (childReady hasHandle : Bool) :
    Action.writeChild (line ++ "\n") ∈
      (wget_next_msg ⟨true, childReady, line, childLine⟩ hasHandle).2 := by
  cases childReady <;> cases hasHandle <;> simp [wget_next_msg]


/-! ### Shared lemmas for restore-path traces -/

theorem mem_mutActs (tr : List Action) (a : Action) (ha : a ∈ tr)
    (hk : a = Action.stop ∨ a = Action.start ∨ ∃ s d, a = Action.copy s d) :
    a ∈ mutActs tr := by
  induction tr with
  | nil => simp at ha
  | cons x t ih =>
    rcases List.mem_cons.mp ha with rfl | ha2
    · rcases hk with rfl | rfl | ⟨s, d, rfl⟩ <;> simp [mutActs]
    · have hm := ih ha2
      cases x <;> simp [mutActs, hm]

theorem start_not_in_save_current (sn ts f c : String) (outs : List String) :
    Action.start ∉ (save_current sn ts f c outs).1 := by
  intro hmem
  have h2 := mem_mutActs _ _ hmem (Or.inr (Or.inl rfl))
  rw [mutActs_save_current] at h2
  split at h2 <;> simp at h2

theorem start_not_in_print_to_server (msg username : String) (outs : List String) :
    Action.start ∉ (print_to_server msg username outs).1 := by
  intro hmem
  have h2 := mem_mutActs _ _ hmem (Or.inr (Or.inl rfl))
  rw [mutActs_print_to_server] at h2
  simp at h2

theorem write_sublist_save_current (sn ts f c : String) (outs : List String) :
    List.Sublist [Action.writeChild "/server-save\n"] (save_current sn ts f c outs).1 := by
  rw [save_current_eq]
  exact List.Sublist.cons₂ _ (List.nil_sublist _)

theorem write_sublist_print_to_server (msg : String) (outs : List String) :
    List.Sublist [Action.writeChild (msg ++ "\n")] (print_to_server msg "" outs).1 := by
  unfold print_to_server
  exact List.Sublist.cons₂ _ (List.nil_sublist _)

/-! ### Claim C2, amended -/

/-- **C2** (corrected, amended claim).  A missing restore target is handled
asymmetrically.  (a) When the name given to `!!ls <name>` is not found among
the scanned archive records, the command aborts before any stop/copy/start:
its trace contains no state-mutating action, and the "Cannot find the save
file" notification is sent to the channel.  (b) But an out-of-range autosave
index is *not* detected early: `load_autosave` performs the safety-backup
save and **stops the server** before indexing, then the out-of-range access
raises (completion flag `false`) — the server is never restarted
(`Action.start` absent), nothing is copied over the authoritative save path,
and no error notification is sent. -/
theorem c2_restore_target_missing_behavior (saveName timeStr name : String)
    (archiveFiles autosaveFiles : List String) (outs outs2 : List String)
    (target : Int)
    (hlook : lookupSave archiveFiles name = (none, true))
    (hrange : pyIndex (autosaveFiles.filter fun fl => isSub "_autosave".data fl.data)
        (target - 1) = none) :
    (mutActs (handle_ls_named saveName timeStr archiveFiles name outs).1 = [] ∧
     Action.writeChild ("Cannot find the save file " ++ name ++
         ". Please check if the name is correct. " ++ "\n") ∈
       (handle_ls_named saveName timeStr archiveFiles name outs).1) ∧
    (Action.stop ∈ (load_autosave saveName timeStr autosaveFiles target outs2).1 ∧
     (load_autosave saveName timeStr autosaveFiles target outs2).2.2 = false ∧
     Action.start ∉ (load_autosave saveName timeStr autosaveFiles target outs2).1 ∧
     copiesTo ("./factorio/saves/" ++ saveName)
       (load_autosave saveName timeStr autosaveFiles target outs2).1 = []) := by
  refine ⟨⟨?_, ?_⟩, ?_, ?_, ?_, ?_⟩
  · unfold handle_ls_named
    rw [hlook]
    exact mutActs_print_to_server _ "" outs
  · unfold handle_ls_named
    rw [hlook]
    unfold print_to_server
    simp
  · unfold load_autosave
    simp only [hrange]
    simp
  · unfold load_autosave
    simp only [hrange]
  · unfold load_autosave
    simp only [hrange]
    intro hmem
    rcases List.mem_append.mp hmem with hmem2 | hmem3
    · rcases List.mem_append.mp hmem2 with hsc | hpt
      · exact start_not_in_save_current _ _ _ _ _ hsc
      · exact start_not_in_print_to_server _ "" _ hpt
    · simp at hmem3
  · unfold load_autosave
    simp only [hrange]
    rw [copiesTo_append, copiesTo_append, copiesTo_auth_save_current,
      copiesTo_print_to_server]
    simp [copiesTo]

/-- Witness for C2: one archive record labeled `x` (so the name `y` is not
found), one autosave file and the out-of-range request `!!la 5`. -/
theorem c2_restore_target_missing_behavior_witness :
    lookupSave ["saves/s/2024_01_01_00_00_00_x_bob"] "y" = (none, true) ∧
    pyIndex ((["factorio/saves/_autosave1.zip"] : List String).filter
      fun fl => isSub "_autosave".data fl.data) (5 - 1) = none ∧
    ((mutActs (handle_ls_named "sav.zip" "T" ["saves/s/2024_01_01_00_00_00_x_bob"]
        "y" ["o1\n"]).1 = [] ∧
      Action.writeChild ("Cannot find the save file " ++ "y" ++
          ". Please check if the name is correct. " ++ "\n") ∈
        (handle_ls_named "sav.zip" "T" ["saves/s/2024_01_01_00_00_00_x_bob"]
          "y" ["o1\n"]).1) ∧
     (Action.stop ∈ (load_autosave "sav.zip" "T" ["factorio/saves/_autosave1.zip"]
        5 ["a\n", "b\n", "c\n", "d\n"]).1 ∧
      (load_autosave "sav.zip" "T" ["factorio/saves/_autosave1.zip"]
        5 ["a\n", "b\n", "c\n", "d\n"]).2.2 = false ∧
      Action.start ∉ (load_autosave "sav.zip" "T" ["factorio/saves/_autosave1.zip"]
        5 ["a\n", "b\n", "c\n", "d\n"]).1 ∧
      copiesTo ("./factorio/saves/" ++ "sav.zip")
        (load_autosave "sav.zip" "T" ["factorio/saves/_autosave1.zip"]
          5 ["a\n", "b\n", "c\n", "d\n"]).1 = [])) :=
  ⟨by decide, by decide,
   c2_restore_target_missing_behavior "sav.zip" "T" "y"
     ["saves/s/2024_01_01_00_00_00_x_bob"] ["factorio/saves/_autosave1.zip"]
     ["o1\n"] ["a\n", "b\n", "c\n", "d\n"] 5 (by decide) (by decide)⟩


/-! ### Claim C4, amended -/

/-- **C4** (corrected, amended claim).  Every restore path performs exactly
one safety-backup save of the current live state first (exactly one
`/server-save` line is written to the child), then — regardless of whether
the safety save succeeded, since the statement holds for every output script
`outs` — proceeds, strictly in order, to server stop, copying the chosen
source file over the authoritative save path, and server start.
`load_last_save` and `load_autosave` additionally send one notification
between the safety save and the stop; `load_requested_save` sends none: its
only child-stdin write is the save command itself. -/
theorem c4_restore_protocol (saveName timeStr tgt : String)
    (archiveFiles autosaveFiles : List String) (outs o2 o3 : List String)
    (target : Int) (f g : String)
    (hlast : (archiveFiles.filter
      (fun fl => !(isSub "autosave_server".data fl.data))).head? = some f)
    (hauto : pyIndex (autosaveFiles.filter fun fl => isSub "_autosave".data fl.data)
      (target - 1) = some g) :
    (childWrites (load_requested_save saveName timeStr tgt outs).1 =
       ["/server-save\n"] ∧
     List.Sublist [Action.writeChild "/server-save\n", Action.stop,
         Action.copy tgt ("./factorio/saves/" ++ saveName), Action.start]
       (load_requested_save saveName timeStr tgt outs).1) ∧
    (childWrites (load_last_save saveName timeStr archiveFiles o2).1 =
       ["/server-save\n", "loading the last manual saved file" ++ "\n"] ∧
     List.Sublist [Action.writeChild "/server-save\n",
         Action.writeChild ("loading the last manual saved file" ++ "\n"),
         Action.stop, Action.copy f ("./factorio/saves/" ++ saveName), Action.start]
       (load_last_save saveName timeStr archiveFiles o2).1) ∧
    (childWrites (load_autosave saveName timeStr autosaveFiles target o3).1 =
       ["/server-save\n",
        "loading the autosave " ++ toString target ++ " file(s) before..." ++ "\n"] ∧
     List.Sublist [Action.writeChild "/server-save\n",
         Action.writeChild ("loading the autosave " ++ toString target ++
           " file(s) before..." ++ "\n"),
         Action.stop, Action.copy g ("./factorio/saves/" ++ saveName), Action.start]
       (load_autosave saveName timeStr autosaveFiles target o3).1) := by
  refine ⟨⟨?_, ?_⟩, ⟨?_, ?_⟩, ⟨?_, ?_⟩⟩
  · unfold load_requested_save
    rw [childWrites_append, childWrites_save_current]
    simp [childWrites]
  · unfold load_requested_save
    exact List.Sublist.append (write_sublist_save_current _ _ _ _ _)
      (List.Sublist.refl _)
  · unfold load_last_save
    simp only [hlast]
    rw [childWrites_append, childWrites_append, childWrites_save_current,
      childWrites_print_to_server]
    simp [childWrites]
  · unfold load_last_save
    simp only [hlast]
    exact List.Sublist.append
      (List.Sublist.append (write_sublist_save_current _ _ _ _ _)
        (write_sublist_print_to_server _ _))
      (List.Sublist.cons _ (List.Sublist.refl _))
  · unfold load_autosave
    simp only [hauto]
    rw [childWrites_append, childWrites_append, childWrites_save_current,
      childWrites_print_to_server]
    simp [childWrites]
  · unfold load_autosave
    simp only [hauto]
    exact List.Sublist.append
      (List.Sublist.append (write_sublist_save_current _ _ _ _ _)
        (write_sublist_print_to_server _ _))
      (List.Sublist.cons _ (List.Sublist.refl _))

/-- Witness for C4 at one archive record, one autosave file, and `!!la 1`;
the output script makes the safety save fail, showing the failure does not
block the stop/copy/start steps. -/
theorem c4_restore_protocol_witness :
    ((["saves/s/2024_01_01_00_00_00_x_bob"] : List String).filter
      (fun fl => !(isSub "autosave_server".data fl.data))).head? =
        some "saves/s/2024_01_01_00_00_00_x_bob" ∧
    pyIndex ((["factorio/saves/_autosave1.zip"] : List String).filter
      fun fl => isSub "_autosave".data fl.data) ((1 : Int) - 1) =
        some "factorio/saves/_autosave1.zip" ∧
    ((childWrites (load_requested_save "sav.zip" "T" "saves/s/x"
        ["a\n", "b\n", "c\n"]).1 = ["/server-save\n"] ∧
      List.Sublist [Action.writeChild "/server-save\n", Action.stop,
          Action.copy "saves/s/x" ("./factorio/saves/" ++ "sav.zip"), Action.start]
        (load_requested_save "sav.zip" "T" "saves/s/x" ["a\n", "b\n", "c\n"]).1) ∧
     (childWrites (load_last_save "sav.zip" "T"
        ["saves/s/2024_01_01_00_00_00_x_bob"] ["a\n", "b\n", "c\n", "d\n"]).1 =
        ["/server-save\n", "loading the last manual saved file" ++ "\n"] ∧
      List.Sublist [Action.writeChild "/server-save\n",
          Action.writeChild ("loading the last manual saved file" ++ "\n"),
          Action.stop, Action.copy "saves/s/2024_01_01_00_00_00_x_bob"
            ("./factorio/saves/" ++ "sav.zip"), Action.start]
        (load_last_save "sav.zip" "T" ["saves/s/2024_01_01_00_00_00_x_bob"]
          ["a\n", "b\n", "c\n", "d\n"]).1) ∧
     (childWrites (load_autosave "sav.zip" "T" ["factorio/saves/_autosave1.zip"]
        1 ["a\n", "b\n", "c\n", "d\n"]).1 =
        ["/server-save\n",
         "loading the autosave " ++ toString (1 : Int) ++ " file(s) before..." ++ "\n"] ∧
      List.Sublist [Action.writeChild "/server-save\n",
          Action.writeChild ("loading the autosave " ++ toString (1 : Int) ++
            " file(s) before..." ++ "\n"),
          Action.stop, Action.copy "factorio/saves/_autosave1.zip"
            ("./factorio/saves/" ++ "sav.zip"), Action.start]
        (load_autosave "sav.zip" "T" ["factorio/saves/_autosave1.zip"]
          1 ["a\n", "b\n", "c\n", "d\n"]).1)) :=
  ⟨by decide, by decide,
   c4_restore_protocol "sav.zip" "T" "saves/s/x"
     ["saves/s/2024_01_01_00_00_00_x_bob"] ["factorio/saves/_autosave1.zip"]
     ["a\n", "b\n", "c\n"] ["a\n", "b\n", "c\n", "d\n"]
     ["a\n", "b\n", "c\n", "d\n"] 1 "saves/s/2024_01_01_00_00_00_x_bob"
     "factorio/saves/_autosave1.zip" (by decide) (by decide)⟩


/-! ### Claim C9 -/

/-- **C9** (confirmed).  One step of the interactive browser preserves the
pagination invariant: starting from a `page_index` that is a nonnegative
multiple of the page size and below the record count, every non-quit result
page index is again a nonnegative multiple of 5 below the count (the browser
starts at 0, and `handle_user_act_to_ls` is the only place the index
changes).  A next-page command on the last page and a prev-page command on
the first page leave the index unchanged and emit the corresponding boundary
notification instead of an error. -/
theorem c9_pagination_invariant (cmd : String) (page_index n_files : Int)
    (outs : List String) (hp0 : 0 ≤ page_index) (hp5 : page_index % 5 = 0)
    (hpn : page_index < n_files) :
    (∀ p, (handle_user_act_to_ls cmd page_index n_files outs).1.1 = some p →
       0 ≤ p ∧ p < n_files ∧ p % 5 = 0) ∧
    (String.mk cmd.data.dropLast = "m" → n_files ≤ page_index + FILE_PER_PAGE →
       (handle_user_act_to_ls cmd page_index n_files outs).1.1 = some page_index ∧
       Action.writeChild ("[color=red]ERROR: this is the last page.[/color]" ++ "\n") ∈
         (handle_user_act_to_ls cmd page_index n_files outs).2.1) ∧
    (String.mk cmd.data.dropLast = "n" → page_index - FILE_PER_PAGE < 0 →
       (handle_user_act_to_ls cmd page_index n_files outs).1.1 = some page_index ∧
       Action.writeChild ("[color=red]ERROR: this is the first page.[/color]" ++ "\n") ∈
         (handle_user_act_to_ls cmd page_index n_files outs).2.1) := by
  refine ⟨?_, ?_, ?_⟩
  · intro p hp
    simp only [handle_user_act_to_ls, FILE_PER_PAGE] at hp
    split_ifs at hp <;> simp_all <;> omega
  · intro hm hle
    simp only [handle_user_act_to_ls, FILE_PER_PAGE, hm] at *
    rw [if_pos trivial, if_neg (by omega)]
    constructor
    · rfl
    · simp [print_to_server]
  · intro hn hlt
    simp only [handle_user_act_to_ls, FILE_PER_PAGE, hn] at *
    rw [if_neg (show ¬(("n" : String) = "m") by decide), if_pos trivial,
      if_neg (by omega)]
    constructor
    · rfl
    · simp [print_to_server]

/-- Witness for C9: next-page on the last page (12 records, page size 5,
`page_index = 10`) keeps the index and emits the boundary notification. -/
theorem c9_pagination_invariant_witness :
    (0 : Int) ≤ 10 ∧ (10 : Int) % 5 = 0 ∧ (10 : Int) < 12 ∧
    ((handle_user_act_to_ls "m\n" 10 12 []).1.1 = some 10 ∧
     Action.writeChild ("[color=red]ERROR: this is the last page.[/color]" ++ "\n") ∈
       (handle_user_act_to_ls "m\n" 10 12 []).2.1) :=
  ⟨by decide, by decide, by decide,
   (c9_pagination_invariant "m\n" 10 12 [] (by decide) (by decide)
     (by decide)).2.1 (by decide) (by decide)⟩


/-! ### Claim C8 -/

/-- Auxiliary characterization of the `!!ls <name>` lookup loop: starting at
enumeration index `i`, when every inspected record decodes, the loop equals a
`find?` over the first `101 - i` records (the `i > 100` break fires at index
101, so indices 0‥100 — 101 records — are compared). -/
theorem lookupAux_spec (name : String) (files : List String) : ∀ (i : Nat),
    (∀ f ∈ files.take (101 - i), (parse_file_name f).isSome = true) →
    lookupAux name i files =
      ((files.take (101 - i)).find? (fun f => labelMatches f name), true) := by
  induction files with
  | nil => intro i h; simp [lookupAux]
  | cons f fs ih =>
    intro i h
    by_cases hi : 100 < i
    · have h0 : 101 - i = 0 := by omega
      simp [lookupAux, hi, h0]
    · obtain ⟨k, hk⟩ : ∃ k, 101 - i = k + 1 := ⟨101 - i - 1, by omega⟩
      rw [hk] at h ⊢
      have hf : (parse_file_name f).isSome = true := by
        apply h
        simp [List.take_succ_cons]
      obtain ⟨⟨sn, su, st⟩, htrip⟩ := Option.isSome_iff_exists.mp hf
      have hlm : labelMatches f name = decide (sn = name) := by
        simp [labelMatches, htrip]
      by_cases hsn : sn = name
      · simp only [lookupAux, if_neg hi, htrip]
        rw [if_pos hsn]
        rw [List.take_succ_cons, List.find?_cons_of_pos _ (by simp [hlm, hsn])]
      · simp only [lookupAux, if_neg hi, htrip]
        rw [if_neg hsn]
        have hk2 : 101 - (i + 1) = k := by omega
        have h2 : ∀ f2 ∈ fs.take (101 - (i + 1)), (parse_file_name f2).isSome = true := by
          intro f2 hf2
          apply h
          rw [List.take_succ_cons]
          rw [hk2] at hf2
          exact List.mem_cons_of_mem f hf2
        have := ih (i + 1) h2
        rw [hk2] at this
        rw [this, List.take_succ_cons, List.find?_cons_of_neg _ (by simp [hlm, hsn])]

/-- **C8** (corrected, amended claim).  For `!!ls <name>` with a non-`?`
token, the lookup scans the most recent **101** archive records (the
`i > 100` break first fires at index 101) of the mtime-descending listing for
the first record whose decoded label equals the token: when every scanned
record decodes, the loop is exactly `find?` over `files.take 101`.  (The rest
of the claim — restore on a hit, "not found" notification otherwise — holds
and is the behavior proved for the corresponding branches in C2.) -/
theorem c8_lookup_scans_101 (files : List String) (name : String)
    (h : (files.take 101).all (fun f => (parse_file_name f).isSome) = true) :
    lookupSave files name =
      ((files.take 101).find? (fun f => labelMatches f name), true) := by
  have h2 : ∀ f ∈ files.take (101 - 0), (parse_file_name f).isSome = true := by
    intro f hf
    exact List.all_eq_true.mp h f (by simpa using hf)
  simpa using lookupAux_spec name files 0 h2

/-- **C8, counterexample.**  With 100 records labeled `miss` followed by one
labeled `hitlabel` in position 101, the lookup *finds* the 101st record even
though none of the first 100 matches — the scan is not limited to the most
recent 100 records as the claim states. -/
theorem c8_match_at_position_101_found :
    lookupSave (List.replicate 100 "saves/s/2024_01_01_00_00_00_miss_bob" ++
      ["saves/s/2024_01_01_00_00_00_hitlabel_bob"]) "hitlabel" =
      (some "saves/s/2024_01_01_00_00_00_hitlabel_bob", true) ∧
    ((List.replicate 100 "saves/s/2024_01_01_00_00_00_miss_bob" ++
      ["saves/s/2024_01_01_00_00_00_hitlabel_bob"]).take 100).all
      (fun f => !(labelMatches f "hitlabel")) = true := by
  constructor
  · decide
  · decide

/-- Witness for C8 on a one-record archive. -/
theorem c8_lookup_scans_101_witness :
    ((["saves/s/2024_01_01_00_00_00_x_bob"] : List String).take 101).all
      (fun f => (parse_file_name f).isSome) = true ∧
    lookupSave ["saves/s/2024_01_01_00_00_00_x_bob"] "x" =
      (((["saves/s/2024_01_01_00_00_00_x_bob"] : List String).take 101).find?
        (fun f => labelMatches f "x"), true) :=
  ⟨by decide, c8_lookup_scans_101 _ "x" (by decide)⟩


/-! ### Claim C10, amended -/

/-- **C10** (corrected, amended claim).  For every label and author
containing neither underscores **nor slashes** (slash-free is the extra
condition the counterexample forces: `parse_file_name` first splits on `/`
and keeps only the last component), decoding the archive path produced by
`save_current` yields exactly that label and author, and the decoded
timestamp reproduces all six encoded timestamp fields — i.e. it matches the
encoded time to one-second resolution.  The timestamp fields produced by
`strftime` are digit strings, hence themselves underscore- and slash-free,
which is how they appear as hypotheses here. -/
theorem c10_roundtrip (saveName y mo dy hr mi sec label author : String)
    (hy : '_' ∉ y.data ∧ '/' ∉ y.data)
    (hmo : '_' ∉ mo.data ∧ '/' ∉ mo.data)
    (hdy : '_' ∉ dy.data ∧ '/' ∉ dy.data)
    (hhr : '_' ∉ hr.data ∧ '/' ∉ hr.data)
    (hmi : '_' ∉ mi.data ∧ '/' ∉ mi.data)
    (hsec : '_' ∉ sec.data ∧ '/' ∉ sec.data)
    (hlabel : '_' ∉ label.data ∧ '/' ∉ label.data)
    (hauthor : '_' ∉ author.data ∧ '/' ∉ author.data) :
    parse_file_name (archiveDest saveName (strftimeSave y mo dy hr mi sec)
        label author) =
      some (label, author,
        y ++ "/" ++ mo ++ "/" ++ dy ++ " " ++ hr ++ ":" ++ mi ++ ":" ++ sec) := by
  have hus : ("_" : String).data = ['_'] := rfl
  have hsl2 : ("/" : String).data = ['/'] := rfl
  have hF : (archiveDest saveName (strftimeSave y mo dy hr mi sec) label author).data
      = ("./saves/" ++ saveName).data ++ '/' ::
        (strftimeSave y mo dy hr mi sec ++ "_" ++ label ++ "_" ++ author).data := by
    simp [archiveDest, data_append, hus, hsl2, List.append_assoc]
  have hnos : '/' ∉ (strftimeSave y mo dy hr mi sec ++ "_" ++ label ++ "_" ++ author).data := by
    simp [strftimeSave, data_append, hus, List.mem_append, hy.2, hmo.2, hdy.2,
      hhr.2, hmi.2, hsec.2, hlabel.2, hauthor.2]
  have hlast : lastD (splitCh '/' (archiveDest saveName
      (strftimeSave y mo dy hr mi sec) label author).data) []
      = (strftimeSave y mo dy hr mi sec ++ "_" ++ label ++ "_" ++ author).data := by
    rw [hF, splitCh_last_after_sep, splitCh_no_sep _ _ hnos]
    rfl
  have e : (strftimeSave y mo dy hr mi sec ++ "_" ++ label ++ "_" ++ author).data
      = y.data ++ '_' :: (mo.data ++ '_' :: (dy.data ++ '_' :: (hr.data ++ '_' ::
        (mi.data ++ '_' :: (sec.data ++ '_' :: (label.data ++ '_' :: author.data)))))) := by
    simp [strftimeSave, data_append, hus, List.append_assoc]
  have htoks : splitCh '_' (strftimeSave y mo dy hr mi sec ++ "_" ++ label
      ++ "_" ++ author).data
      = [y.data, mo.data, dy.data, hr.data, mi.data, sec.data, label.data,
         author.data] := by
    rw [e, splitCh_append_sep _ _ _ hy.1, splitCh_append_sep _ _ _ hmo.1,
      splitCh_append_sep _ _ _ hdy.1, splitCh_append_sep _ _ _ hhr.1,
      splitCh_append_sep _ _ _ hmi.1, splitCh_append_sep _ _ _ hsec.1,
      splitCh_append_sep _ _ _ hlabel.1, splitCh_no_sep _ _ hauthor.1]
  have hone : String.intercalate " " [label] = label := rfl
  simp only [parse_file_name]
  rw [hlast, htoks]
  simp [mk_data, lastD, List.getD, hone]

/-- Witness for C10 at the scenario-A style input: label `backup1`, author
`alice`, timestamp `2024_01_02_03_04_05`. -/
theorem c10_roundtrip_witness :
    ('_' ∉ "backup1".data ∧ '/' ∉ "backup1".data) ∧
    parse_file_name (archiveDest "sav.zip"
        (strftimeSave "2024" "01" "02" "03" "04" "05") "backup1" "alice") =
      some ("backup1", "alice",
        "2024" ++ "/" ++ "01" ++ "/" ++ "02" ++ " " ++ "03" ++ ":" ++ "04"
          ++ ":" ++ "05") :=
  ⟨by decide,
   c10_roundtrip "sav.zip" "2024" "01" "02" "03" "04" "05" "backup1" "alice"
     (by decide) (by decide) (by decide) (by decide) (by decide) (by decide)
     (by decide) (by decide)⟩

end FSC
